import Mathlib

/-!
Verification of the microcluster cluster-lifecycle library.

This file gives a shallow embedding of the parts of the source that the
checked properties talk about: the schema/API-extension upgrade fence run
by the database `Open` path (`internal/db/db.go`), the `Transaction`
status guard and retry wrapper, request authentication
(`rest/access/handlers.go`), the token-driven join flow and the
`/control` handler (`internal/rest/resources/`), the token-record mapper
(`cluster/cluster_members.mapper.go`), the `/database` POST handler and
the tail of the daemon start sequence.  Go functions become Lean
functions; Go errors become an explicit error datatype; the surrounding
I/O environment (network fetches, SQL results, hook outcomes) is passed
in as explicit data so every definition is executable.
-/

set_option autoImplicit false

namespace Microcluster

/-- Shallow embedding of the Go `error` values the embedded code creates
and inspects.  Plain `fmt.Errorf` messages that the code never matches on
become `msg`; sentinel errors that the code distinguishes (by
`errors.Is` or by constructing them at a known place) get their own
constructor.  `wrap` models `fmt.Errorf` with a `%w` verb. -/
inductive GoError where
  /-- A plain formatted error message that is never matched on. -/
  | msg (s : String)
  /-- `update.ErrGracefulAbort` from `internal/db/update/errors.go`. -/
  | gracefulAbort
  /-- The error built in `checkSchemaVersion` saying this node has an
  outdated schema version and must upgrade. -/
  | nodeBehindSchema
  /-- The error built in `checkAPIExtensions` saying this node has
  outdated API extensions and must upgrade. -/
  | nodeBehindAPI
  /-- `context.DeadlineExceeded`. -/
  | deadlineExceeded
  /-- The transient dqlite leader-unavailable error
  (`driver.ErrNoAvailableLeader`). -/
  | leaderUnavailable
  /-- `sqlite3.ErrConstraintUnique`, a storage-engine uniqueness
  violation. -/
  | uniqueConstraint
  /-- `api.StatusErrorf code message`. -/
  | statusError (code : Nat) (s : String)
  /-- `access.ErrInvalidHost` wrapping the invalid-request-address
  message for the given host header. -/
  | invalidHost (host : String)
  /-- The fingerprint-mismatch error built in `joinWithToken` when a
  fetched certificate does not match the token fingerprint. -/
  | fingerprintMismatch (expected actual : String)
  /-- A Go `nil` error value, used where an error-typed slot may be
  empty (such as the `lastErr` variable of `joinWithToken`). -/
  | nilError
  /-- The composite error built in `joinWithToken` when every candidate
  failed: it reports the number of attempts and wraps the last error. -/
  | joinFailed (attempts : Nat) (last : GoError)
  /-- An error wrapped by `fmt.Errorf` with a message and `%w`. -/
  | wrap (s : String) (e : GoError)
  deriving DecidableEq, Repr

/-- `errors.Is target`: unwrap `wrap` layers and compare with the
target sentinel. -/
def GoError.is : GoError → GoError → Bool
  | .wrap _ e, t => e.is t
  | e, t => e == t

/-- The database status enum used by the coordinator
(`{NotReady, Starting, Waiting, Ready, Offline}`). -/
inductive DatabaseStatus where
  | NotReady
  | Starting
  | Waiting
  | Ready
  | Offline
  deriving DecidableEq, Repr

/-- API extensions are an ordered list of opaque labels
(`internal/extensions`). -/
abbrev Extensions := List String

/-- Modelled from the spec: `Extensions.Version` of the missing
`internal/extensions` package is the number of labels in the list. -/
def Extensions.version (e : Extensions) : Nat := e.length

/-- Modelled from the spec: `Extensions.IsSameVersion` of the missing
`internal/extensions` package succeeds exactly when the two label lists
are identical (same length and a label match at every position). -/
def Extensions.isSameVersion (a b : Extensions) : Bool := a == b

/-- `checkSchemaVersion` from `DqliteDB.waitUpgrade`
(`internal/db/db.go`): walk the recorded versions of all cluster
members; a member at the same version is skipped, a member strictly
behind sets the `nodeIsBehind` flag, and a member strictly ahead makes
the whole check fail with the node-is-behind error.  The accumulator
`nodeIsBehind` starts as `false` at the call site. -/
def checkSchemaVersion (schemaVersion : Nat) :
    List Nat → Bool → Except GoError Bool
  | [], nodeIsBehind => .ok nodeIsBehind
  | version :: rest, nodeIsBehind =>
    if schemaVersion == version then
      checkSchemaVersion schemaVersion rest nodeIsBehind
    else if schemaVersion > version then
      checkSchemaVersion schemaVersion rest true
    else
      .error .nodeBehindSchema

/-- `checkAPIExtensions` from `DqliteDB.waitUpgrade`
(`internal/db/db.go`): a member whose extension list is identical is
skipped; a member with a `nil` list or a strictly shorter list sets the
`nodeIsBehind` flag; any other member (a longer list, or an
equal-length list that differs) makes the check fail with the
API-extensions-behind error.  A Go `nil` slice is modelled by
`Option.none`; `IsSameVersion` with `nil` compares against the empty
list. -/
def checkAPIExtensions (current : Extensions) :
    List (Option Extensions) → Bool → Except GoError Bool
  | [], nodeIsBehind => .ok nodeIsBehind
  | ext? :: rest, nodeIsBehind =>
    if current.isSameVersion (ext?.getD []) then
      checkAPIExtensions current rest nodeIsBehind
    else if ext?.isNone || current.version > (ext?.getD []).version then
      checkAPIExtensions current rest true
    else
      .error .nodeBehindAPI

/-- The data the fence reads and compares: this node's compiled schema
versions and extension list, and the rows recorded for all cluster
members (this node's row has already been updated inside the same
transaction by `UpdateClusterMemberSchemaVersion` and
`UpdateClusterMemberAPIExtensions`). -/
structure FenceInput where
  schemaInternal : Nat
  schemaExternal : Nat
  ext : Extensions
  versionsInternal : List Nat
  versionsExternal : List Nat
  memberExtensions : List (Option Extensions)
  deriving Repr

/-- The `checkVersions` schema-check callback registered via
`newSchema.Check` in `DqliteDB.waitUpgrade`: run the internal then the
external schema comparison; only when both succeed and one of them saw
a member behind does it set the shared `otherNodesBehind` flag and
abort with the graceful-abort sentinel.  Returns the flag value and the
error the callback produced. -/
def checkVersions (i : FenceInput) : Bool × Option GoError :=
  match checkSchemaVersion i.schemaInternal i.versionsInternal false with
  | .error e => (false, some e)
  | .ok behindInternal =>
    match checkSchemaVersion i.schemaExternal i.versionsExternal false with
    | .error e => (false, some e)
    | .ok behindExternal =>
      if behindInternal || behindExternal then (true, some .gracefulAbort)
      else (false, none)

/-- Modelled from the spec: `SchemaUpdate.Ensure` of the missing
`internal/db/update` schema package runs the registered check inside
the schema transaction and propagates its error (committing the
graceful abort), and on success applies the pending migrations.  On a
bootstrap start no check was registered, so `Ensure` succeeds.  The
result is the `otherNodesBehind` flag set by the callback together
with the error `Ensure` returned. -/
def ensureResult (bootstrap : Bool) (i : FenceInput) : Bool × Option GoError :=
  if bootstrap then (false, none) else checkVersions i

/-- What `DqliteDB.waitUpgrade` did: the error it returned, whether it
set the database status to `Waiting`, and the upper bound in seconds of
the wait it performed on the upgrade-notify channel (0 when it did not
wait, 30 for the `select` on `db.upgradeCh` and the 30-second timer). -/
structure WaitUpgradeResult where
  err : Option GoError
  statusSetWaiting : Bool
  waitedSeconds : Nat
  deriving DecidableEq, Repr

/-- `DqliteDB.waitUpgrade` (`internal/db/db.go`): run the schema fence
(`Ensure` with the registered `checkVersions`), then, when not
bootstrapping and the schema fence passed, run the API-extension check
in its own transaction; a member behind on API extensions sets
`otherNodesBehind` and yields the graceful-abort sentinel.  When
`otherNodesBehind` is set on a non-bootstrap start the status becomes
`Waiting` and the function blocks on the upgrade channel or a
30-second timer before returning the error.  The deterministic check
errors are not transient, so the surrounding `db.retry` returns them
unchanged. -/
def DqliteDB.waitUpgrade (bootstrap : Bool) (i : FenceInput) : WaitUpgradeResult :=
  let ensured := ensureResult bootstrap i
  let afterAPI : Bool × Option GoError :=
    match ensured.2 with
    | some e => (ensured.1, some e)
    | none =>
      if bootstrap then (ensured.1, none)
      else
        match checkAPIExtensions i.ext i.memberExtensions false with
        | .error e => (ensured.1, some e)
        | .ok true => (true, some .gracefulAbort)
        | .ok false => (ensured.1, none)
  if afterAPI.1 && !bootstrap then
    { err := afterAPI.2, statusSetWaiting := true, waitedSeconds := 30 }
  else
    { err := afterAPI.2, statusSetWaiting := false, waitedSeconds := 0 }

/-- What `DqliteDB.Open` did: the error it returned, the status the
database holds afterwards (`Ready` on success, `Offline` via the
reverter on failure), and the fence observations. -/
structure OpenResult where
  err : Option GoError
  finalStatus : DatabaseStatus
  statusSetWaiting : Bool
  waitedSeconds : Nat
  deriving DecidableEq, Repr

/-- `DqliteDB.Open` (`internal/db/db.go`): set status `Starting`, wait
for dqlite, run `waitUpgrade`, and on any error return it with the
reverter putting the status back to `Offline`; on success prepare the
statements and set status `Ready`.  The dqlite bring-up and statement
preparation are external effects assumed to succeed here. -/
def DqliteDB.Open (bootstrap : Bool) (i : FenceInput) : OpenResult :=
  let w := DqliteDB.waitUpgrade bootstrap i
  match w.err with
  | some e =>
    { err := some e, finalStatus := .Offline,
      statusSetWaiting := w.statusSetWaiting, waitedSeconds := w.waitedSeconds }
  | none =>
    { err := none, finalStatus := .Ready,
      statusSetWaiting := w.statusSetWaiting, waitedSeconds := w.waitedSeconds }

/-- Outcome of one iteration of the `for` loop in `DB.Join`: the open
succeeded, or it gracefully aborted and the loop re-attempts the fence,
or it failed with an error that the daemon surfaces. -/
inductive JoinStepOutcome where
  | started
  | retryFence (e : GoError)
  | fail (e : GoError)
  deriving DecidableEq, Repr

/-- One iteration of the retry loop in `DB.Join`: call `Open` with
`bootstrap = false`; on success the daemon starts; on
`update.ErrGracefulAbort` the loop continues and re-attempts the fence
from the start; any other error is returned and the daemon does not
start. -/
def DB.joinOpenStep (i : FenceInput) : JoinStepOutcome :=
  let r := DqliteDB.Open false i
  match r.err with
  | none => .started
  | some e => if e.is .gracefulAbort then .retryFence e else .fail e

/-! ## Transaction status guard and retry wrapper (`internal/db/db.go`) -/

/-- The environment of a `Transaction` call: `results i` is the outcome
of the `i`-th invocation of `query.Transaction(db, f)` (`none` means
the transaction function succeeded). -/
structure TxEnv where
  results : Nat → Option GoError

/-- `errors.Is` lifted to an optional error: a `nil` Go error matches
no sentinel. -/
def optionErrIs (e? : Option GoError) (t : GoError) : Bool :=
  match e? with
  | some e => e.is t
  | none => false

/-- The closure passed to `db.retry` inside `DqliteDB.Transaction`: run
the transaction once; when it failed with `context.DeadlineExceeded`,
run it exactly once more and return that second outcome.  The state is
the index of the next transaction invocation; the returned index says
how many times the transaction function has run. -/
def transactionClosure (env : TxEnv) (i : Nat) : Option GoError × Nat :=
  let e := env.results i
  if optionErrIs e .deadlineExceeded then (env.results (i + 1), i + 2)
  else (e, i + 1)

/-- Modelled from the spec: the external lxd `query.Retry` helper
treats the transient leader-unavailable error as retriable;
`context.DeadlineExceeded` and the deterministic errors of this
development are not retried by it. -/
def isRetriableError (e? : Option GoError) : Bool :=
  optionErrIs e? .leaderUnavailable

/-- Modelled from the spec: the external lxd `query.Retry` helper
performs a bounded number of attempts (with exponential back-off);
the bound is kept abstract as this constant. -/
def queryRetryMaxAttempts : Nat := 10

/-- Modelled from the spec: the external lxd `query.Retry` loop with
`fuel` remaining extra attempts: run the function; while the outcome is
retriable and attempts remain, run it again. -/
def queryRetry (run : Nat → Option GoError × Nat) :
    Nat → Nat → Option GoError × Nat
  | 0, i => run i
  | fuel + 1, i =>
    let r := run i
    if isRetriableError r.1 then queryRetry run fuel r.2 else r

/-- `DqliteDB.retry` (`internal/db/db.go`): when the daemon context is
already cancelled run the function once without retrying, otherwise
delegate to `query.Retry`. -/
def DqliteDB.retry (ctxDone : Bool) (run : Nat → Option GoError × Nat)
    (i : Nat) : Option GoError × Nat :=
  if ctxDone then run i else queryRetry run (queryRetryMaxAttempts - 1) i

/-- `DqliteDB.Transaction` (`internal/db/db.go`): refuse with a 503
status error when the database status is neither `Waiting` nor `Ready`
(without running the transaction function at all); otherwise run the
deadline-retrying closure under `db.retry`.  The result pairs the
returned error with the number of times the transaction function ran. -/
def DqliteDB.Transaction (status : DatabaseStatus) (ctxDone : Bool)
    (env : TxEnv) : Option GoError × Nat :=
  if status != DatabaseStatus.Waiting && status != DatabaseStatus.Ready then
    (some (.statusError 503 "Database is not ready yet"), 0)
  else
    DqliteDB.retry ctxDone (transactionClosure env) 0

/-! ## Request authentication (`rest/access/handlers.go`) -/

/-- An X.509 certificate: its raw bytes and its SHA-256 fingerprint.
The fingerprint is carried as a field (the hash function itself stays
abstract); byte-exact certificate comparison is equality of `raw`. -/
structure GoCert where
  raw : String
  fingerprint : String
  deriving DecidableEq, Repr

/-- The parts of an incoming HTTP request that `Authenticate` looks at:
the remote address (`"@"` for the local unix control socket), the
`Host` header, and the TLS connection state with the peer certificate
chain (`none` when the request carried no TLS state). -/
structure HTTPRequest where
  remoteAddr : String
  host : String
  tls : Option (List GoCert)
  deriving Repr

/-- A parsed `host:port` address, as produced by the missing
`types.ParseAddrPort` via Go `netip`: the IP literal, an optional IPv6
zone, the port, and whether the literal is IPv6. -/
structure AddrPort where
  addr : String
  zone : String
  port : Nat
  isV6 : Bool
  deriving DecidableEq, Repr

/-- Numeric value of a digit string. -/
def natOfDigits (cs : List Char) : Nat :=
  cs.foldl (fun n c => n * 10 + (c.toNat - 48)) 0

/-- Split a character list at every occurrence of a separator. -/
def splitOnChar (sep : Char) : List Char → List (List Char)
  | [] => [[]]
  | x :: xs =>
    match splitOnChar sep xs with
    | [] => [[]]
    | acc :: rest =>
      if x == sep then [] :: acc :: rest else (x :: acc) :: rest

/-- Parse a decimal port number below 65536. -/
def parsePortChars (cs : List Char) : Option Nat :=
  if !cs.isEmpty && cs.all Char.isDigit then
    let n := natOfDigits cs
    if n < 65536 then some n else none
  else none

/-- Modelled from the spec: `types.ParseAddrPort` (the `addrport.go`
source is missing; its behaviour follows Go `netip.ParseAddrPort` as
exercised by `addrport_test.go`): a bracketed IPv6 literal with an
optional `%zone` followed by `:port`, or a colon-free host followed by
`:port`.  Malformed strings yield `none`. -/
def parseAddrPort (s : String) : Option AddrPort :=
  match s.toList with
  | '[' :: rest =>
    let inside := rest.takeWhile fun c => c != ']'
    (match rest.dropWhile fun c => c != ']' with
     | ']' :: ':' :: portCs =>
       (match splitOnChar '%' inside with
        | [a] =>
          if !a.isEmpty && a.contains ':' then
            (parsePortChars portCs).map fun p =>
              { addr := String.mk a, zone := "", port := p, isV6 := true }
          else none
        | [a, z] =>
          if !a.isEmpty && a.contains ':' && !z.isEmpty then
            (parsePortChars portCs).map fun p =>
              { addr := String.mk a, zone := String.mk z, port := p, isV6 := true }
          else none
        | _ => none)
     | _ => none)
  | cs =>
    (match splitOnChar ':' cs with
     | [h, portCs] =>
       if !h.isEmpty && !h.contains '%' then
         (parsePortChars portCs).map fun p =>
           { addr := String.mk h, zone := "", port := p, isV6 := false }
       else none
     | _ => none)

/-- `AddrPort.WithZone` (`rest/types`): replace the IPv6 zone; per
`addrport_test.go` a zone is only attached to IPv6 addresses. -/
def AddrPort.withZone (ap : AddrPort) (z : String) : AddrPort :=
  if ap.isV6 then { ap with zone := z } else ap

/-- The canonical `String()` form of a parsed address, as compared
against the request `Host` header. -/
def AddrPort.toGoString (ap : AddrPort) : String :=
  if ap.isV6 then
    "[" ++ ap.addr ++ (if ap.zone != "" then "%" ++ ap.zone else "") ++
      "]:" ++ toString ap.port
  else
    ap.addr ++ ":" ++ toString ap.port

/-- Modelled from the spec: `util.CheckMutualTLS` of the external lxd
`util` package trusts a presented certificate exactly when it matches
one of the trusted certificates byte for byte. -/
def checkMutualTLS (cert : GoCert) (trustedCerts : List GoCert) : Bool :=
  trustedCerts.any fun t => t.raw == cert.raw

/-- The listener state `Authenticate` consults: the fingerprint of the
daemon server certificate, and the fingerprint of the certificate the
core network listener currently serves (`none` when the core endpoint
is not a network listener). -/
structure AuthEnv where
  serverCertFingerprint : String
  coreNetworkCertFingerprint : Option String
  deriving DecidableEq, Repr

/-- `Authenticate` (`rest/access/handlers.go`): requests over the local
unix socket are trusted; while the core listener still serves the
server certificate (pre-init) every request is trusted; otherwise the
advertised host address is parsed (failure is an error), a request
whose `Host` header differs from the canonical advertised address gets
the distinguished `ErrInvalidHost`, and a matching request is trusted
exactly when some presented TLS peer certificate byte-matches a trusted
certificate. -/
def Authenticate (env : AuthEnv) (r : HTTPRequest) (hostAddress : String)
    (trustedCerts : List GoCert) : Bool × Option GoError :=
  if r.remoteAddr == "@" then (true, none)
  else if env.coreNetworkCertFingerprint == some env.serverCertFingerprint then
    (true, none)
  else
    match parseAddrPort hostAddress with
    | none => (false, some (.msg "Invalid host address"))
    | some hostAddrPort =>
      if r.host == (hostAddrPort.withZone "").toGoString then
        match r.tls with
        | some peerCerts =>
          (peerCerts.any fun c => checkMutualTLS c trustedCerts, none)
        | none => (false, none)
      else (false, some (.invalidHost r.host))

/-! ## Token-driven join (`joinWithToken` in the resources package) -/

/-- A decoded join token: the secret, the fingerprint of the cluster
certificate, and the candidate addresses of existing members in the
order listed in the token. -/
structure Token where
  secret : String
  fingerprint : String
  joinAddresses : List String
  deriving DecidableEq, Repr

/-- The network environment a join runs against, per candidate address:
the outcome of `shared.GetRemoteCertificate`, of building a mutual-TLS
client with `internalClient.New`, and of the
`internalClient.AddClusterMember` admission request (`none` means the
peer admitted us). -/
structure JoinEnv where
  fetchCert : String → Except GoError GoCert
  clientNew : String → Option GoError
  addMember : String → Option GoError

/-- The candidate loop of `joinWithToken`: walk the token addresses in
order carrying `lastErr`; a failed certificate fetch or a failed
admission request records the error and moves on to the next candidate;
a fetched certificate whose fingerprint differs from the token
fingerprint, or a client construction error, aborts the whole join; a
successful admission stops the loop.  Returns the result together with
the list of candidates that were attempted, in order.  `total` is
`len(token.JoinAddresses)`, reported by the composite error. -/
def joinLoop (env : JoinEnv) (fp : String) (total : Nat) :
    List String → GoError → Except GoError String × List String
  | [], lastErr => (.error (.joinFailed total lastErr), [])
  | addr :: rest, lastErr =>
    match env.fetchCert addr with
    | .error e =>
      let r := joinLoop env fp total rest e
      (r.1, addr :: r.2)
    | .ok cert =>
      if cert.fingerprint != fp then
        (.error (.fingerprintMismatch cert.fingerprint fp), [addr])
      else
        match env.clientNew addr with
        | some e => (.error e, [addr])
        | none =>
          match env.addMember addr with
          | none => (.ok addr, [addr])
          | some e =>
            let r := joinLoop env fp total rest e
            (r.1, addr :: r.2)

/-- `joinWithToken` (the driver in the resources package): run the
candidate loop over the token addresses with a `nil` initial
`lastErr`.  A successful admission is represented by the address of the
member that admitted us (standing in for the returned
`TokenResponse`). -/
def joinWithToken (env : JoinEnv) (token : Token) :
    Except GoError String × List String :=
  joinLoop env token.fingerprint token.joinAddresses.length
    token.joinAddresses .nilError

/-- A candidate fails without aborting the join: either its certificate
cannot be fetched, or the certificate matches the token fingerprint and
the client is built but the admission request fails. -/
def candidateFails (env : JoinEnv) (fp : String) (a : String) : Prop :=
  (∃ e, env.fetchCert a = .error e) ∨
  (∃ c, env.fetchCert a = .ok c ∧ c.fingerprint = fp ∧
    env.clientNew a = none ∧ ∃ e, env.addMember a = some e)

/-- The value held by `lastErr` after walking a list of candidates that
all fail: the error of the last failing candidate. -/
def joinLastErr (env : JoinEnv) : List String → GoError → GoError
  | [], le => le
  | a :: rest, le =>
    match env.fetchCert a with
    | .error e => joinLastErr env rest e
    | .ok _ =>
      match env.addMember a with
      | some e => joinLastErr env rest e
      | none => joinLastErr env rest le

/-! ## Token records (`cluster/cluster_members.mapper.go`) -/

/-- A row of the `core_token_records` table. -/
structure CoreTokenRecord where
  id : Int
  secret : String
  name : String
  expiryDate : Int
  deriving DecidableEq, Repr

/-- `CoreTokenRecordExists`: whether some row carries the given secret
(the mapper resolves the secret to an ID and reports 404 as
`false`). -/
def CoreTokenRecordExists (recs : List CoreTokenRecord) (secret : String) : Bool :=
  recs.any fun r => r.secret == secret

/-- Modelled from the spec: the `core_token_records` DDL (the schema
file is not among the sources; the spec records that the joiner name is
unique).  An `INSERT` whose name collides with an existing row fails
with the storage-engine uniqueness violation; otherwise the row is
appended. -/
def coreTokenRecordsInsert (recs : List CoreTokenRecord)
    (r : CoreTokenRecord) : Except GoError (List CoreTokenRecord) :=
  if recs.any fun x => x.name == r.name then .error .uniqueConstraint
  else .ok (recs ++ [r])

/-- `CreateCoreTokenRecord` (`cluster/cluster_members.mapper.go`): first
refuse with an explicit 409 Conflict when a row with the same secret
exists, then execute the insert statement, wrapping a statement error.
The enclosing transaction rolls back on error, so the table component
of the result is unchanged on every error path. -/
def CreateCoreTokenRecord (recs : List CoreTokenRecord)
    (object : CoreTokenRecord) : List CoreTokenRecord × Except GoError Int :=
  if CoreTokenRecordExists recs object.secret then
    (recs, .error (.statusError 409 "This core_token_records entry already exists"))
  else
    match coreTokenRecordsInsert recs object with
    | .error e =>
      (recs, .error (.wrap "Failed to create core_token_records entry" e))
    | .ok recs2 => (recs2, .ok (Int.ofNat recs.length + 1))

/-- The HTTP status an api.StatusError carries, found by unwrapping. -/
def GoError.statusCode : GoError → Option Nat
  | .statusError c _ => some c
  | .wrap _ e => e.statusCode
  | _ => none

/-- The status code the response layer derives from an error: the
mappings registered by `response.Init` in the daemon (`409` for the
storage-engine uniqueness violation, `503` for the lost dqlite leader,
both matched by `errors.Is`), then the code carried by a status error,
then 500.  The lookup itself lives in the external smart-error table
the spec describes. -/
def smartErrorStatus (e : GoError) : Nat :=
  if e.is .uniqueConstraint then 409
  else if e.is .leaderUnavailable then 503
  else
    match e.statusCode with
    | some c => c
    | none => 500

/-! ## Daemon start tail (`Daemon.Run`) -/

/-- The tail of `Daemon.Run` after the state directory checks: `d.init`
runs, then the `OnStart` hook, and only when both return no error is
the ready channel closed.  The result pairs the error `Run` returns
with whether `d.ReadyChan` was closed. -/
def daemonRunStartTail (initErr : Option GoError) (onStartErr : Option GoError) :
    Option GoError × Bool :=
  match initErr with
  | some e => (some (.wrap "Daemon failed to start" e), false)
  | none =>
    match onStartErr with
    | some e => (some (.wrap "Failed to run post-start hook" e), false)
    | none => (none, true)

/-! ## REST handlers (`internal/rest/resources`) -/

/-- The response values the embedded handlers produce. -/
inductive Response where
  | emptySync
  | badRequest (s : String)
  | smartError (e : GoError)
  deriving DecidableEq, Repr

/-- Go `strconv.Atoi` restricted to values that fit: an optional sign
followed by at least one digit. -/
def goAtoiCore (cs : List Char) : Option Nat :=
  if !cs.isEmpty && cs.all Char.isDigit then some (natOfDigits cs) else none

/-- Go `strconv.Atoi`. -/
def goAtoi (s : String) : Option Int :=
  match s.toList with
  | '+' :: rest => (goAtoiCore rest).map Int.ofNat
  | '-' :: rest => (goAtoiCore rest).map fun n => -(Int.ofNat n)
  | cs => (goAtoiCore cs).map Int.ofNat

/-- The headers `databasePost` looks at; an absent `X-Dqlite-Version`
header is the empty string, as with Go `Header.Get`. -/
structure DatabasePostRequest where
  upgradeHeader : String
  dqliteVersionHeader : String
  deriving DecidableEq, Repr

/-- `databasePost` (`internal/rest/resources/database.go`): default the
version header to `"0"`, reject a non-numeric version and a missing or
non-`dqlite` `Upgrade` header with 400, and otherwise return the empty
success response (which the connection layer turns into the protocol
switch).  The parsed version value is not compared against anything. -/
def databasePost (r : DatabasePostRequest) : Response :=
  let versionHeader :=
    if r.dqliteVersionHeader == "" then "0" else r.dqliteVersionHeader
  match goAtoi versionHeader with
  | none => .badRequest "Invalid dqlite version"
  | some _ =>
    if r.upgradeHeader != "dqlite" then
      .badRequest "Missing or invalid upgrade header"
    else
      .emptySync

/-- The externally visible state mutations `controlPost` can perform,
in order of occurrence. -/
inductive Effect where
  | setConfig
  | preInitHook
  | removeServerKeyPair
  | generateServerKeyPair
  | reloadCert
  | writeClusterCert
  | writeAdditionalCerts
  | writeTrustStore
  | startAPI
  deriving DecidableEq, Repr

/-- The decoded body of a `POST /control` request. -/
structure Control where
  bootstrap : Bool
  joinToken : String
  address : String
  name : String
  deriving DecidableEq, Repr

/-- The environment `controlPost` runs in: the FQDN validator (the
`internal/utils` source is missing; the spec requires the name to be a
valid FQDN), the outcomes of `SetConfig`, the `PreInit` hook and
`StartAPI`, whether the server certificate already carries the
requested name, the token decoder (`internal/rest/types`), and the
network environment of a join. -/
structure ControlEnv where
  validFQDN : String → Bool
  setConfigErr : Option GoError
  preInitErr : Option GoError
  certNameMatches : Bool
  decodeToken : String → Except GoError Token
  joinEnv : JoinEnv
  startAPIErr : Option GoError

/-- `controlPost` (the resources package): refuse unless the database
status is `NotReady`; decode the body; refuse a request carrying both
the bootstrap flag and a join token; validate the name; write the
daemon config; run the `PreInit` hook; regenerate the server keypair
when its name does not match; with a token, decode it and run
`joinWithToken` followed by the local member setup writes; finally
start the API.  The second component records the state mutations
performed, in order. -/
def controlPost (status : DatabaseStatus) (body : Option Control)
    (env : ControlEnv) : Response × List Effect :=
  if status != DatabaseStatus.NotReady then
    (.smartError (.msg "Unable to initialize cluster"), [])
  else
    match body with
    | none => (.badRequest "decode", [])
    | some req =>
      if req.bootstrap && req.joinToken != "" then
        (.smartError (.msg "Invalid options - received join token and bootstrap flag"), [])
      else if !env.validFQDN req.name then
        (.smartError (.msg "Cluster member name is not a valid FQDN"), [])
      else
        match env.setConfigErr with
        | some e => (.smartError e, [])
        | none =>
          match env.preInitErr with
          | some e =>
            (.smartError (.wrap "Failed to run pre-init hook before starting the API" e),
              [.setConfig, .preInitHook])
          | none =>
            let effCert : List Effect :=
              if !env.certNameMatches then
                [.setConfig, .preInitHook, .removeServerKeyPair,
                  .generateServerKeyPair, .reloadCert]
              else [.setConfig, .preInitHook]
            if req.joinToken != "" then
              match env.decodeToken req.joinToken with
              | .error e => (.smartError e, effCert)
              | .ok token =>
                match (joinWithToken env.joinEnv token).1 with
                | .error e => (.smartError e, effCert)
                | .ok _ =>
                  let effJoin := effCert ++
                    [.writeClusterCert, .writeAdditionalCerts, .writeTrustStore]
                  match env.startAPIErr with
                  | some e => (.smartError e, effJoin ++ [.startAPI])
                  | none => (.emptySync, effJoin ++ [.startAPI])
            else
              match env.startAPIErr with
              | some e => (.smartError e, effCert ++ [.startAPI])
              | none => (.emptySync, effCert ++ [.startAPI])

/-! ## Comparison predicates used to state the fence properties -/

/-- Some recorded member version is strictly ahead of ours. -/
def schemaAhead (mine : Nat) (vs : List Nat) : Bool :=
  vs.any fun v => decide (mine < v)

/-- Some recorded member version is strictly behind ours. -/
def schemaBehind (mine : Nat) (vs : List Nat) : Bool :=
  vs.any fun v => decide (v < mine)

/-- A member's recorded API-extension list is strictly ahead of ours:
it exists and carries strictly more labels. -/
def apiAhead (mine : Extensions) : Option Extensions → Bool
  | none => false
  | some l => decide (mine.length < l.length)

/-- A member's recorded API-extension list is strictly behind ours: it
is `nil` while we have labels, or it carries strictly fewer labels. -/
def apiBehind (mine : Extensions) : Option Extensions → Bool
  | none => !mine.isEmpty
  | some l => decide (l.length < mine.length)

/-- A member's recorded API-extension list is comparable with ours
without forcing an upgrade of this node: it is `nil`, identical to
ours, or strictly shorter. -/
def apiComparable (mine : Extensions) : Option Extensions → Bool
  | none => true
  | some l => l == mine || decide (l.length < mine.length)

/-- The boolean guard on the skip branch of `checkAPIExtensions`. -/
def apiSame (mine : Extensions) (e? : Option Extensions) : Bool :=
  mine.isSameVersion (e?.getD [])

/-- The boolean guard on the flag-setting branch of
`checkAPIExtensions`. -/
def apiBehindBranch (mine : Extensions) (e? : Option Extensions) : Bool :=
  e?.isNone || mine.version > (e?.getD []).version

/-- A member that makes `checkAPIExtensions` fail: neither identical
nor on the flag-setting branch. -/
def apiErrTrigger (mine : Extensions) (e? : Option Extensions) : Bool :=
  !apiSame mine e? && !apiBehindBranch mine e?

/-- A member that makes `checkAPIExtensions` set the behind flag. -/
def apiBehindFlag (mine : Extensions) (e? : Option Extensions) : Bool :=
  !apiSame mine e? && apiBehindBranch mine e?

/-! ## Helper lemmas about the fence checks -/

theorem checkSchemaVersion_ahead (v : Nat) (vs : List Nat) (b : Bool)
    (h : ∃ w ∈ vs, v < w) :
    checkSchemaVersion v vs b = .error .nodeBehindSchema := by
  induction vs generalizing b with
  | nil => simp at h
  | cons x xs ih =>
    rcases h with ⟨w, hw, hvw⟩
    simp only [List.mem_cons] at hw
    simp only [checkSchemaVersion]
    rcases hw with rfl | hmem
    · rw [if_neg (by simp; omega), if_neg (by omega)]
    · by_cases heq : v = x
      · subst heq
        rw [if_pos (by simp)]
        exact ih b ⟨w, hmem, hvw⟩
      · by_cases hgt : v > x
        · rw [if_neg (by simp [heq]), if_pos hgt]
          exact ih true ⟨w, hmem, hvw⟩
        · rw [if_neg (by simp [heq]), if_neg hgt]

theorem checkSchemaVersion_ok (v : Nat) (vs : List Nat) (b : Bool)
    (h : ∀ w ∈ vs, w ≤ v) :
    checkSchemaVersion v vs b = .ok (b || vs.any fun w => decide (w < v)) := by
  induction vs generalizing b with
  | nil => simp [checkSchemaVersion]
  | cons x xs ih =>
    have hx : x ≤ v := h x (List.mem_cons_self x xs)
    have htail : ∀ w ∈ xs, w ≤ v := fun w hw => h w (List.mem_cons_of_mem x hw)
    simp only [checkSchemaVersion]
    by_cases heq : v = x
    · subst heq
      rw [if_pos (by simp), ih b htail]
      simp
    · have hgt : v > x := Nat.lt_of_le_of_ne hx fun hxx => heq hxx.symm
      rw [if_neg (by simp [heq]), if_pos hgt, ih true htail]
      simp [List.any_cons, decide_eq_true hgt]

theorem checkAPIExtensions_error (mine : Extensions)
    (es : List (Option Extensions)) (b : Bool)
    (h : ∃ e? ∈ es, apiErrTrigger mine e? = true) :
    checkAPIExtensions mine es b = .error .nodeBehindAPI := by
  induction es generalizing b with
  | nil => simp at h
  | cons x xs ih =>
    rcases h with ⟨e?, he, htrig⟩
    simp only [List.mem_cons] at he
    simp only [checkAPIExtensions]
    rcases he with rfl | hmem
    · cases hs : mine.isSameVersion (e?.getD []) with
      | true =>
        exfalso
        simp [apiErrTrigger, apiSame, hs] at htrig
      | false =>
        cases hb : (e?.isNone || decide (mine.version > (e?.getD []).version)) with
        | true =>
          exfalso
          simp [apiErrTrigger, apiSame, apiBehindBranch, hs, hb] at htrig
        | false =>
          rw [if_neg (by simp [hs]), if_neg (by simp [hb])]
    · cases hs : mine.isSameVersion (x.getD []) with
      | true =>
        rw [if_pos rfl]
        exact ih b ⟨e?, hmem, htrig⟩
      | false =>
        cases hb : (x.isNone || decide (mine.version > (x.getD []).version)) with
        | true =>
          rw [if_neg (by simp), if_pos rfl]
          exact ih true ⟨e?, hmem, htrig⟩
        | false =>
          rw [if_neg (by simp [hs]), if_neg (by simp [hb])]

theorem checkAPIExtensions_ok (mine : Extensions)
    (es : List (Option Extensions)) (b : Bool)
    (h : ∀ e? ∈ es, apiErrTrigger mine e? = false) :
    checkAPIExtensions mine es b = .ok (b || es.any (apiBehindFlag mine)) := by
  induction es generalizing b with
  | nil => simp [checkAPIExtensions]
  | cons x xs ih =>
    have hx := h x (List.mem_cons_self x xs)
    have htail : ∀ e? ∈ xs, apiErrTrigger mine e? = false :=
      fun e? he => h e? (List.mem_cons_of_mem x he)
    simp only [checkAPIExtensions]
    cases hs : mine.isSameVersion (x.getD []) with
    | true =>
      rw [if_pos rfl, ih b htail]
      have hflag : apiBehindFlag mine x = false := by
        simp [apiBehindFlag, apiSame, hs]
      simp [List.any_cons, hflag]
    | false =>
      cases hb : (x.isNone || decide (mine.version > (x.getD []).version)) with
      | false =>
        exfalso
        have htrig : apiErrTrigger mine x = true := by
          simp [apiErrTrigger, apiSame, apiBehindBranch, hs, hb]
        rw [hx] at htrig
        exact Bool.false_ne_true htrig
      | true =>
        rw [if_neg (by simp), if_pos rfl, ih true htail]
        have hflag : apiBehindFlag mine x = true := by
          simp [apiBehindFlag, apiSame, apiBehindBranch, hs, hb]
        simp [List.any_cons, hflag]

theorem not_schemaAhead_le (mine : Nat) (vs : List Nat)
    (h : schemaAhead mine vs = false) : ∀ w ∈ vs, w ≤ mine := by
  intro w hw
  by_contra hlt
  have hany : (vs.any fun v => decide (mine < v)) = true :=
    List.any_eq_true.mpr ⟨w, hw, by simp; omega⟩
  rw [schemaAhead] at h
  rw [h] at hany
  exact Bool.false_ne_true hany

theorem checkSchemaVersion_ok_b (v : Nat) (vs : List Nat) (b : Bool)
    (h : schemaAhead v vs = false) :
    checkSchemaVersion v vs b = .ok (b || schemaBehind v vs) :=
  checkSchemaVersion_ok v vs b (not_schemaAhead_le v vs h)

theorem apiAhead_trigger (mine : Extensions) (e? : Option Extensions)
    (h : apiAhead mine e? = true) : apiErrTrigger mine e? = true := by
  cases e? with
  | none => simp [apiAhead] at h
  | some l =>
    simp only [apiAhead, decide_eq_true_eq] at h
    have hne : (mine == l) = false := by
      simp only [beq_eq_false_iff_ne, ne_eq]
      intro hml
      rw [hml] at h
      omega
    simp [apiErrTrigger, apiSame, apiBehindBranch, Extensions.isSameVersion,
      Extensions.version, hne]
    omega

theorem apiComparable_no_trigger (mine : Extensions) (e? : Option Extensions)
    (h : apiComparable mine e? = true) : apiErrTrigger mine e? = false := by
  cases e? with
  | none => simp [apiErrTrigger, apiBehindBranch]
  | some l =>
    simp only [apiComparable, Bool.or_eq_true, beq_iff_eq, decide_eq_true_eq] at h
    rcases h with rfl | hlen
    · simp [apiErrTrigger, apiSame, Extensions.isSameVersion]
    · simp [apiErrTrigger, apiSame, apiBehindBranch, Extensions.isSameVersion,
        Extensions.version]
      omega

theorem apiBehind_flag (mine : Extensions) (e? : Option Extensions)
    (h : apiBehind mine e? = true) : apiBehindFlag mine e? = true := by
  cases e? with
  | none =>
    simp only [apiBehind, Bool.not_eq_true'] at h
    have hne : (mine == ([] : Extensions)) = false := by
      simp only [beq_eq_false_iff_ne, ne_eq]
      intro hml
      rw [hml] at h
      simp at h
    simp [apiBehindFlag, apiSame, apiBehindBranch, Extensions.isSameVersion, hne]
  | some l =>
    simp only [apiBehind, decide_eq_true_eq] at h
    have hne : (mine == l) = false := by
      simp only [beq_eq_false_iff_ne, ne_eq]
      intro hml
      rw [hml] at h
      omega
    simp [apiBehindFlag, apiSame, apiBehindBranch, Extensions.isSameVersion,
      Extensions.version, hne]
    omega

theorem schemaAhead_exists (mine : Nat) (vs : List Nat)
    (h : schemaAhead mine vs = true) : ∃ w ∈ vs, mine < w := by
  rcases List.any_eq_true.mp h with ⟨w, hw, hd⟩
  exact ⟨w, hw, of_decide_eq_true hd⟩

/-! ## Claim theorems -/

/-- C1 (amended): on a non-bootstrap start, if any member's recorded
internal or external schema version is strictly ahead of this node, the
fence fails with the non-retryable this-node-is-behind error, `Open`
returns it with the status reverted to `Offline`, and the join loop
surfaces it instead of retrying (the error is not the graceful-abort
sentinel and `query.Retry` does not consider it transient), so the
daemon does not start.  If instead no member's schema version is ahead
or behind but some member's API-extension list is strictly ahead, the
same happens with the API-extensions-behind error.  (As claimed, with
the proviso that a member strictly behind on schema versions makes the
fence gracefully abort before the API-extension comparison runs.) -/
theorem open_fails_when_node_behind (i : FenceInput) :
    ((schemaAhead i.schemaInternal i.versionsInternal = true ∨
      schemaAhead i.schemaExternal i.versionsExternal = true) →
      (DqliteDB.Open false i).err = some .nodeBehindSchema ∧
      (DqliteDB.Open false i).finalStatus = .Offline ∧
      DB.joinOpenStep i = .fail .nodeBehindSchema ∧
      isRetriableError (some .nodeBehindSchema) = false) ∧
    ((schemaAhead i.schemaInternal i.versionsInternal = false ∧
      schemaAhead i.schemaExternal i.versionsExternal = false ∧
      schemaBehind i.schemaInternal i.versionsInternal = false ∧
      schemaBehind i.schemaExternal i.versionsExternal = false ∧
      ∃ e? ∈ i.memberExtensions, apiAhead i.ext e? = true) →
      (DqliteDB.Open false i).err = some .nodeBehindAPI ∧
      (DqliteDB.Open false i).finalStatus = .Offline ∧
      DB.joinOpenStep i = .fail .nodeBehindAPI ∧
      isRetriableError (some .nodeBehindAPI) = false) := by
  constructor
  · intro h
    have hcv : checkVersions i = (false, some .nodeBehindSchema) := by
      unfold checkVersions
      rcases h with hInt | hExt
      · rw [checkSchemaVersion_ahead _ _ _ (schemaAhead_exists _ _ hInt)]
      · cases hInt : schemaAhead i.schemaInternal i.versionsInternal with
        | true => rw [checkSchemaVersion_ahead _ _ _ (schemaAhead_exists _ _ hInt)]
        | false =>
          rw [checkSchemaVersion_ok_b _ _ false hInt,
            checkSchemaVersion_ahead _ _ _ (schemaAhead_exists _ _ hExt)]
    have hw : DqliteDB.waitUpgrade false i =
        { err := some .nodeBehindSchema, statusSetWaiting := false, waitedSeconds := 0 } := by
      simp [DqliteDB.waitUpgrade, ensureResult, hcv]
    have hopen : DqliteDB.Open false i =
        { err := some .nodeBehindSchema, finalStatus := .Offline,
          statusSetWaiting := false, waitedSeconds := 0 } := by
      simp [DqliteDB.Open, hw]
    refine ⟨by simp [hopen], by simp [hopen], ?_, rfl⟩
    simp [DB.joinOpenStep, hopen, GoError.is]
  · rintro ⟨hAI, hAE, hBI, hBE, e?, hmem, hah⟩
    have hcv : checkVersions i = (false, none) := by
      unfold checkVersions
      rw [checkSchemaVersion_ok_b _ _ false hAI, checkSchemaVersion_ok_b _ _ false hAE,
        hBI, hBE]
      rfl
    have hapi : checkAPIExtensions i.ext i.memberExtensions false =
        .error .nodeBehindAPI :=
      checkAPIExtensions_error _ _ _ ⟨e?, hmem, apiAhead_trigger _ _ hah⟩
    have hw : DqliteDB.waitUpgrade false i =
        { err := some .nodeBehindAPI, statusSetWaiting := false, waitedSeconds := 0 } := by
      simp [DqliteDB.waitUpgrade, ensureResult, hcv, hapi]
    have hopen : DqliteDB.Open false i =
        { err := some .nodeBehindAPI, finalStatus := .Offline,
          statusSetWaiting := false, waitedSeconds := 0 } := by
      simp [DqliteDB.Open, hw]
    refine ⟨by simp [hopen], by simp [hopen], ?_, rfl⟩
    simp [DB.joinOpenStep, hopen, GoError.is]

/-- C1 witness: concrete fence inputs exercising both implications of
`open_fails_when_node_behind`. -/
theorem open_fails_when_node_behind_witness :
    (DqliteDB.Open false ⟨0, 0, [], [1], [0], []⟩).err = some .nodeBehindSchema ∧
    (DqliteDB.Open false ⟨0, 0, ["a"], [0], [0], [some ["a", "b"]]⟩).err =
      some .nodeBehindAPI :=
  ⟨((open_fails_when_node_behind ⟨0, 0, [], [1], [0], []⟩).1 (Or.inl (by decide))).1,
   ((open_fails_when_node_behind ⟨0, 0, ["a"], [0], [0], [some ["a", "b"]]⟩).2
      ⟨by decide, by decide, by decide, by decide,
        some ["a", "b"], by decide, by decide⟩).1⟩

/-- C1 counterexample: a member whose API-extension list is strictly
ahead of this node while another member's schema version is strictly
behind.  The claim demands the non-retryable this-node-is-behind
failure, but the schema check gracefully aborts first: `Open` returns
the graceful-abort sentinel, the status was set to `Waiting`, and the
join loop re-attempts the fence instead of failing. -/
theorem open_api_ahead_not_failing_counterexample :
    apiAhead ["a"] (some ["a", "b"]) = true ∧
    some ["a", "b"] ∈ ([some ["a"], some ["a", "b"]] : List (Option Extensions)) ∧
    (DqliteDB.Open false ⟨1, 0, ["a"], [1, 0], [0, 0], [some ["a"], some ["a", "b"]]⟩).err
      = some .gracefulAbort ∧
    (DqliteDB.Open false ⟨1, 0, ["a"], [1, 0], [0, 0], [some ["a"], some ["a", "b"]]⟩).statusSetWaiting
      = true ∧
    DB.joinOpenStep ⟨1, 0, ["a"], [1, 0], [0, 0], [some ["a"], some ["a", "b"]]⟩
      = .retryFence .gracefulAbort := by
  refine ⟨by decide, by decide, rfl, rfl, rfl⟩

/-- C2 (amended): on a non-bootstrap start, when no member is strictly
ahead of this node (schema versions not ahead, and every member's
API-extension list is nil, identical, or strictly shorter) and at least
one member is strictly behind on a schema version or on its
API-extension list, the fence aborts with the graceful-abort sentinel,
the status is set to `Waiting`, the coordinator blocks on the
upgrade-notify channel or a timer of at most 30 seconds, and the join
loop re-attempts the fence from the start.  (As claimed, with the
proviso that a member whose API-extension list has the same length as
ours but different labels is neither ahead nor behind and makes the
fence fail hard instead.) -/
theorem waitUpgrade_others_behind_waits (i : FenceInput)
    (hAI : schemaAhead i.schemaInternal i.versionsInternal = false)
    (hAE : schemaAhead i.schemaExternal i.versionsExternal = false)
    (hComp : ∀ e? ∈ i.memberExtensions, apiComparable i.ext e? = true)
    (hBehind : schemaBehind i.schemaInternal i.versionsInternal = true ∨
      schemaBehind i.schemaExternal i.versionsExternal = true ∨
      ∃ e? ∈ i.memberExtensions, apiBehind i.ext e? = true) :
    DqliteDB.waitUpgrade false i =
      { err := some .gracefulAbort, statusSetWaiting := true, waitedSeconds := 30 } ∧
    (DqliteDB.Open false i).err = some .gracefulAbort ∧
    DB.joinOpenStep i = .retryFence .gracefulAbort := by
  have hInt := checkSchemaVersion_ok_b i.schemaInternal i.versionsInternal false hAI
  have hExt := checkSchemaVersion_ok_b i.schemaExternal i.versionsExternal false hAE
  have hw : DqliteDB.waitUpgrade false i =
      { err := some .gracefulAbort, statusSetWaiting := true, waitedSeconds := 30 } := by
    cases hb1 : schemaBehind i.schemaInternal i.versionsInternal with
    | true =>
      have hcv : checkVersions i = (true, some .gracefulAbort) := by
        unfold checkVersions
        rw [hInt, hExt, hb1]
        rfl
      simp [DqliteDB.waitUpgrade, ensureResult, hcv]
    | false =>
      cases hb2 : schemaBehind i.schemaExternal i.versionsExternal with
      | true =>
        have hcv : checkVersions i = (true, some .gracefulAbort) := by
          unfold checkVersions
          rw [hInt, hExt, hb1, hb2]
          rfl
        simp [DqliteDB.waitUpgrade, ensureResult, hcv]
      | false =>
        have hcv : checkVersions i = (false, none) := by
          unfold checkVersions
          rw [hInt, hExt, hb1, hb2]
          rfl
        rcases hBehind with h | h | h
        · rw [hb1] at h
          exact absurd h Bool.false_ne_true
        · rw [hb2] at h
          exact absurd h Bool.false_ne_true
        · rcases h with ⟨e?, hmem, hbe⟩
          have hapi : checkAPIExtensions i.ext i.memberExtensions false = .ok true := by
            rw [checkAPIExtensions_ok i.ext i.memberExtensions false
              fun x hx => apiComparable_no_trigger _ _ (hComp x hx)]
            have hany : i.memberExtensions.any (apiBehindFlag i.ext) = true :=
              List.any_eq_true.mpr ⟨e?, hmem, apiBehind_flag _ _ hbe⟩
            rw [hany]
            rfl
          simp [DqliteDB.waitUpgrade, ensureResult, hcv, hapi]
  have hopen : DqliteDB.Open false i =
      { err := some .gracefulAbort, finalStatus := .Offline,
        statusSetWaiting := true, waitedSeconds := 30 } := by
    simp [DqliteDB.Open, hw]
  exact ⟨hw, by simp [hopen], by simp [DB.joinOpenStep, hopen, GoError.is]⟩

/-- C2 witness: one member with an empty API-extension list (strictly
behind) and everyone level on schema versions makes the coordinator
wait. -/
theorem waitUpgrade_others_behind_waits_witness :
    DqliteDB.waitUpgrade false ⟨2, 1, ["a"], [2, 2], [1, 1], [some ["a"], some []]⟩ =
      { err := some .gracefulAbort, statusSetWaiting := true, waitedSeconds := 30 } :=
  (waitUpgrade_others_behind_waits ⟨2, 1, ["a"], [2, 2], [1, 1], [some ["a"], some []]⟩
    (by decide) (by decide) (by decide)
    (Or.inr (Or.inr ⟨some [], by decide, by decide⟩))).1

/-- C2 counterexample: all schema versions equal and one member with an
empty API-extension list (strictly behind), but another member whose
list has the same length as ours with a different label — no member is
strictly ahead, yet the fence does not gracefully abort into the
`Waiting` state as claimed: it fails hard with the
API-extensions-behind error and the join loop surfaces the failure. -/
theorem waitUpgrade_behind_no_wait_counterexample :
    schemaAhead 0 [0, 0, 0] = false ∧
    (∀ e? ∈ ([some ["a"], some ["b"], some []] : List (Option Extensions)),
      apiAhead ["a"] e? = false) ∧
    apiBehind ["a"] (some []) = true ∧
    (DqliteDB.waitUpgrade false ⟨0, 0, ["a"], [0, 0, 0], [0, 0, 0],
      [some ["a"], some ["b"], some []]⟩).err = some .nodeBehindAPI ∧
    (DqliteDB.waitUpgrade false ⟨0, 0, ["a"], [0, 0, 0], [0, 0, 0],
      [some ["a"], some ["b"], some []]⟩).statusSetWaiting = false ∧
    DB.joinOpenStep ⟨0, 0, ["a"], [0, 0, 0], [0, 0, 0],
      [some ["a"], some ["b"], some []]⟩ = .fail .nodeBehindAPI := by
  refine ⟨by decide, by decide, by decide, rfl, rfl, rfl⟩

theorem queryRetry_succ (run : Nat → Option GoError × Nat) (fuel i : Nat) :
    queryRetry run (fuel + 1) i =
      (let r := run i
       if isRetriableError r.1 then queryRetry run fuel r.2 else r) := rfl

theorem queryRetry_leader (env : TxEnv) (k : Nat) :
    ∀ fuel i : Nat, k ≤ fuel →
    (∀ j, j < k → env.results (i + j) = some .leaderUnavailable) →
    env.results (i + k) = none →
    queryRetry (transactionClosure env) fuel i = (none, i + k + 1) := by
  induction k with
  | zero =>
    intro fuel i _ _ hk
    have h0 : env.results i = none := by simpa using hk
    have hfalse : optionErrIs (none : Option GoError) .deadlineExceeded = false := rfl
    have hclosure : transactionClosure env i = (none, i + 1) := by
      simp [transactionClosure, h0, hfalse]
    cases fuel with
    | zero =>
      simp only [queryRetry, hclosure]
    | succ f =>
      rw [queryRetry_succ]
      simp only [hclosure]
      rw [if_neg (by simp [isRetriableError, optionErrIs])]
  | succ k ih =>
    intro fuel i hk hprev hlast
    have h0 : env.results i = some .leaderUnavailable := by
      have := hprev 0 (Nat.succ_pos k)
      simpa using this
    have hfalse : optionErrIs (some GoError.leaderUnavailable) .deadlineExceeded = false := rfl
    have hclosure : transactionClosure env i = (some .leaderUnavailable, i + 1) := by
      simp [transactionClosure, h0, hfalse]
    cases fuel with
    | zero => omega
    | succ f =>
      rw [queryRetry_succ]
      simp only [hclosure]
      have hret : isRetriableError (some GoError.leaderUnavailable) = true := rfl
      rw [if_pos hret]
      have hprev2 : ∀ j, j < k → env.results (i + 1 + j) = some .leaderUnavailable := by
        intro j hj
        have := hprev (j + 1) (by omega)
        rw [show i + 1 + j = i + (j + 1) by omega]
        exact this
      have hlast2 : env.results (i + 1 + k) = none := by
        rw [show i + 1 + k = i + (k + 1) by omega]
        exact hlast
      have := ih f (i + 1) (by omega) hprev2 hlast2
      rw [this, show i + 1 + k + 1 = i + (k + 1) + 1 by omega]

/-- C3: every `Transaction` call with a status other than `Ready` or
`Waiting` is refused with a 503 database-not-ready status error without
the transaction function ever running; with an accepted status, a run
of transient leader-unavailable failures within the retry bound is
ridden out and the transaction eventually succeeds; and a transaction
that fails with `context.DeadlineExceeded` is retried exactly once more
(two invocations in total), that second outcome being returned when it
is not itself transient. -/
theorem transaction_contract (status : DatabaseStatus) (env : TxEnv) :
    ((status ≠ DatabaseStatus.Waiting ∧ status ≠ DatabaseStatus.Ready) →
      ∀ ctxDone, DqliteDB.Transaction status ctxDone env =
        (some (.statusError 503 "Database is not ready yet"), 0)) ∧
    ((status = DatabaseStatus.Waiting ∨ status = DatabaseStatus.Ready) →
      ∀ k, k < queryRetryMaxAttempts →
      (∀ j, j < k → env.results j = some .leaderUnavailable) →
      env.results k = none →
      DqliteDB.Transaction status false env = (none, k + 1)) ∧
    ((status = DatabaseStatus.Waiting ∨ status = DatabaseStatus.Ready) →
      env.results 0 = some .deadlineExceeded →
      isRetriableError (env.results 1) = false →
      DqliteDB.Transaction status false env = (env.results 1, 2)) := by
  refine ⟨?_, ?_, ?_⟩
  · rintro ⟨h1, h2⟩ ctxDone
    have hb : (status != DatabaseStatus.Waiting && status != DatabaseStatus.Ready) = true := by
      simp [bne_iff_ne, h1, h2]
    simp [DqliteDB.Transaction, hb]
  · intro h k hk hprev hlast
    have hguard : (status != DatabaseStatus.Waiting && status != DatabaseStatus.Ready) = false := by
      rcases h with rfl | rfl <;> simp
    have hmax : queryRetryMaxAttempts = 10 := rfl
    have hq := queryRetry_leader env k (queryRetryMaxAttempts - 1) 0
      (by omega) (fun j hj => by simpa using hprev j hj) (by simpa using hlast)
    simp only [DqliteDB.Transaction, hguard, Bool.false_eq_true, if_false,
      DqliteDB.retry, hq]
    simp
  · intro h hdl hnret
    have hguard : (status != DatabaseStatus.Waiting && status != DatabaseStatus.Ready) = false := by
      rcases h with rfl | rfl <;> simp
    have htrue : optionErrIs (some GoError.deadlineExceeded) .deadlineExceeded = true := rfl
    have hclosure : transactionClosure env 0 = (env.results 1, 2) := by
      simp [transactionClosure, hdl, htrue]
    simp only [DqliteDB.Transaction, hguard, Bool.false_eq_true, if_false,
      DqliteDB.retry, show queryRetryMaxAttempts - 1 = 8 + 1 from rfl, queryRetry_succ]
    simp only [hclosure]
    rw [if_neg (by simp [hnret])]

/-- C3 witness: concrete statuses and transaction outcomes for the
three parts of `transaction_contract`. -/
theorem transaction_contract_witness :
    DqliteDB.Transaction .Offline true ⟨fun _ => none⟩ =
      (some (.statusError 503 "Database is not ready yet"), 0) ∧
    DqliteDB.Transaction .Ready false
      ⟨fun i => if i = 0 then some .leaderUnavailable else none⟩ = (none, 2) ∧
    DqliteDB.Transaction .Waiting false
      ⟨fun i => if i = 0 then some .deadlineExceeded else none⟩ = (none, 2) :=
  ⟨(transaction_contract .Offline ⟨fun _ => none⟩).1 ⟨by decide, by decide⟩ true,
   (transaction_contract .Ready ⟨fun i => if i = 0 then some .leaderUnavailable else none⟩).2.1
     (Or.inr rfl) 1 (by decide)
     (fun j hj => by
        have hj0 : j = 0 := by omega
        subst hj0
        rfl)
     rfl,
   (transaction_contract .Waiting ⟨fun i => if i = 0 then some .deadlineExceeded else none⟩).2.2
     (Or.inl rfl) rfl rfl⟩

/-- C4: with a parseable advertised address, `Authenticate` trusts a
request exactly when it arrived over the local control socket, or the
core listener still serves the server certificate (pre-init), or the
`Host` header equals the canonical advertised address and some
presented TLS peer certificate byte-matches a trusted certificate;
while pre-init every request is trusted; and a non-socket, non-pre-init
request whose `Host` header differs from the advertised address gets
the distinguished invalid-host error. -/
theorem authenticate_contract (env : AuthEnv) (r : HTTPRequest)
    (hostAddress : String) (trustedCerts : List GoCert) (ap : AddrPort)
    (hparse : parseAddrPort hostAddress = some ap) :
    ((Authenticate env r hostAddress trustedCerts).1 = true ↔
      (r.remoteAddr = "@" ∨
       env.coreNetworkCertFingerprint = some env.serverCertFingerprint ∨
       (r.host = (ap.withZone "").toGoString ∧
        ∃ certs, r.tls = some certs ∧
          ∃ c ∈ certs, ∃ t ∈ trustedCerts, t.raw = c.raw))) ∧
    (env.coreNetworkCertFingerprint = some env.serverCertFingerprint →
      Authenticate env r hostAddress trustedCerts = (true, none)) ∧
    (r.remoteAddr ≠ "@" →
      env.coreNetworkCertFingerprint ≠ some env.serverCertFingerprint →
      r.host ≠ (ap.withZone "").toGoString →
      Authenticate env r hostAddress trustedCerts =
        (false, some (.invalidHost r.host))) := by
  simp only [Authenticate, hparse]
  by_cases h1 : r.remoteAddr = "@"
  · rw [if_pos (by simp [h1])]
    exact ⟨by simp [h1], fun _ => rfl, fun hne _ _ => absurd h1 hne⟩
  · rw [if_neg (by simp [h1])]
    by_cases h2 : env.coreNetworkCertFingerprint = some env.serverCertFingerprint
    · rw [if_pos (by simp [h2])]
      exact ⟨by simp [h2], fun _ => rfl, fun _ hne _ => absurd h2 hne⟩
    · rw [if_neg (by simp [h2])]
      by_cases h3 : r.host = (ap.withZone "").toGoString
      · rw [if_pos (by simp [h3])]
        cases htls : r.tls with
        | none =>
          exact ⟨by simp [h1, h2], fun hc => absurd hc h2,
            fun _ _ hh => absurd h3 hh⟩
        | some peerCerts =>
          refine ⟨?_, fun hc => absurd hc h2, fun _ _ hh => absurd h3 hh⟩
          simp only [h1, h2, h3, htls, false_or, true_and, Option.some.injEq]
          constructor
          · intro hany
            rcases List.any_eq_true.mp hany with ⟨c, hc, hm⟩
            rw [checkMutualTLS] at hm
            rcases List.any_eq_true.mp hm with ⟨t, ht, hraw⟩
            exact ⟨peerCerts, rfl, c, hc, t, ht, by simpa using hraw⟩
          · rintro ⟨certs, rfl, c, hc, t, ht, hraw⟩
            refine List.any_eq_true.mpr ⟨c, hc, ?_⟩
            rw [checkMutualTLS]
            exact List.any_eq_true.mpr ⟨t, ht, by simp [hraw]⟩
      · rw [if_neg (by simp [h3])]
        exact ⟨by simp [h1, h2, h3], fun hc => absurd hc h2, fun _ _ _ => rfl⟩

/-- C4 witness: a control-socket request, a pre-init request, a
mismatched-host request and a byte-matching certificate, all through
`authenticate_contract` at a concrete advertised address. -/
theorem authenticate_contract_witness :
    (Authenticate ⟨"fpS", some "fpC"⟩ ⟨"@", "h", none⟩ "10.0.0.10:9090" []).1 = true ∧
    Authenticate ⟨"fpS", some "fpS"⟩ ⟨"1.2.3.4:5", "h", none⟩ "10.0.0.10:9090" [] =
      (true, none) ∧
    Authenticate ⟨"fpS", some "fpC"⟩ ⟨"1.2.3.4:5", "other:1", none⟩ "10.0.0.10:9090" [] =
      (false, some (.invalidHost "other:1")) ∧
    (Authenticate ⟨"fpS", some "fpC"⟩
      ⟨"1.2.3.4:5", "10.0.0.10:9090", some [⟨"raw1", "f1"⟩]⟩
      "10.0.0.10:9090" [⟨"raw1", "f9"⟩]).1 = true :=
  ⟨(authenticate_contract ⟨"fpS", some "fpC"⟩ ⟨"@", "h", none⟩ "10.0.0.10:9090" []
      ⟨"10.0.0.10", "", 9090, false⟩ rfl).1.mpr (Or.inl rfl),
   (authenticate_contract ⟨"fpS", some "fpS"⟩ ⟨"1.2.3.4:5", "h", none⟩ "10.0.0.10:9090" []
      ⟨"10.0.0.10", "", 9090, false⟩ rfl).2.1 rfl,
   (authenticate_contract ⟨"fpS", some "fpC"⟩ ⟨"1.2.3.4:5", "other:1", none⟩
      "10.0.0.10:9090" [] ⟨"10.0.0.10", "", 9090, false⟩ rfl).2.2
      (by decide) (by decide) (by decide),
   (authenticate_contract ⟨"fpS", some "fpC"⟩
      ⟨"1.2.3.4:5", "10.0.0.10:9090", some [⟨"raw1", "f1"⟩]⟩
      "10.0.0.10:9090" [⟨"raw1", "f9"⟩] ⟨"10.0.0.10", "", 9090, false⟩ rfl).1.mpr
      (Or.inr (Or.inr ⟨by decide, [⟨"raw1", "f1"⟩], rfl,
        ⟨"raw1", "f1"⟩, by decide, ⟨"raw1", "f9"⟩, by decide, rfl⟩))⟩

theorem joinLoop_attempts_in_order (env : JoinEnv) (fp : String) (total : Nat) :
    ∀ (addrs : List String) (lastErr : GoError),
      ∃ rest, addrs = (joinLoop env fp total addrs lastErr).2 ++ rest := by
  intro addrs
  induction addrs with
  | nil => intro lastErr; exact ⟨[], rfl⟩
  | cons a rest ih =>
    intro lastErr
    cases hf : env.fetchCert a with
    | error e =>
      rcases ih e with ⟨r2, hr2⟩
      refine ⟨r2, ?_⟩
      simp only [joinLoop, hf, List.cons_append]
      rw [← hr2]
    | ok c =>
      by_cases hfp : (c.fingerprint != fp) = true
      · exact ⟨rest, by simp [joinLoop, hf, hfp]⟩
      · have hfp2 : (c.fingerprint != fp) = false := by simpa using hfp
        cases hcn : env.clientNew a with
        | some e => exact ⟨rest, by simp [joinLoop, hf, hfp2, hcn]⟩
        | none =>
          cases ham : env.addMember a with
          | none => exact ⟨rest, by simp [joinLoop, hf, hfp2, hcn, ham]⟩
          | some e =>
            rcases ih e with ⟨r2, hr2⟩
            refine ⟨r2, ?_⟩
            simp only [joinLoop, hf, hfp2, Bool.false_eq_true, if_false, hcn, ham,
              List.cons_append]
            rw [← hr2]

theorem joinLoop_allFail (env : JoinEnv) (fp : String) (total : Nat) :
    ∀ (addrs : List String) (lastErr : GoError),
      (∀ a ∈ addrs, candidateFails env fp a) →
      joinLoop env fp total addrs lastErr =
        (.error (.joinFailed total (joinLastErr env addrs lastErr)), addrs) := by
  intro addrs
  induction addrs with
  | nil => intro lastErr _; simp [joinLoop, joinLastErr]
  | cons a rest ih =>
    intro lastErr hall
    have ha := hall a (List.mem_cons_self a rest)
    have htail : ∀ x ∈ rest, candidateFails env fp x :=
      fun x hx => hall x (List.mem_cons_of_mem a hx)
    rcases ha with ⟨e, hfe⟩ | ⟨c, hfc, hcfp, hcn, e, ham⟩
    · simp [joinLoop, hfe, joinLastErr, ih _ htail]
    · have hbne : (c.fingerprint != fp) = false := by simp [hcfp]
      simp [joinLoop, hfc, hbne, hcn, ham, joinLastErr, ih _ htail]

theorem effect_not_write (eff : Effect)
    (h : eff = .setConfig ∨ eff = .preInitHook ∨ eff = .removeServerKeyPair ∨
      eff = .generateServerKeyPair ∨ eff = .reloadCert) :
    eff ≠ .writeClusterCert ∧ eff ≠ .writeAdditionalCerts ∧
    eff ≠ .writeTrustStore ∧ eff ≠ .startAPI := by
  rcases h with rfl | rfl | rfl | rfl | rfl <;>
    exact ⟨by decide, by decide, by decide, by decide⟩

/-- C5: the token-driven join attempts the candidate addresses in the
order listed in the token (the attempted candidates are an in-order
prefix of the token list); a candidate whose certificate fetch fails,
or whose admission request fails after a matching fingerprint, is
skipped in favour of the next candidate; a fetched certificate whose
fingerprint differs from the token fingerprint aborts the whole join at
once; and when every candidate fails, `joinWithToken` returns the
composite error carrying the number of token addresses and the last
per-candidate error, having attempted all candidates, and the
surrounding control handler performs none of the member-state writes
(cluster certificate, additional certificates, trust store, API
start). -/
theorem joinWithToken_contract (env : JoinEnv) (token : Token) :
    (∃ rest, token.joinAddresses = (joinWithToken env token).2 ++ rest) ∧
    (∀ (fp : String) (total : Nat) (a : String) (rest : List String)
        (lastErr e : GoError), env.fetchCert a = .error e →
      joinLoop env fp total (a :: rest) lastErr =
        ((joinLoop env fp total rest e).1, a :: (joinLoop env fp total rest e).2)) ∧
    (∀ (fp : String) (total : Nat) (a : String) (rest : List String)
        (lastErr : GoError) (c : GoCert) (e : GoError),
      env.fetchCert a = .ok c → c.fingerprint = fp →
      env.clientNew a = none → env.addMember a = some e →
      joinLoop env fp total (a :: rest) lastErr =
        ((joinLoop env fp total rest e).1, a :: (joinLoop env fp total rest e).2)) ∧
    (∀ (fp : String) (total : Nat) (a : String) (rest : List String)
        (lastErr : GoError) (c : GoCert),
      env.fetchCert a = .ok c → c.fingerprint ≠ fp →
      joinLoop env fp total (a :: rest) lastErr =
        (.error (.fingerprintMismatch c.fingerprint fp), [a])) ∧
    ((∀ a ∈ token.joinAddresses, candidateFails env token.fingerprint a) →
      (joinWithToken env token).1 =
        .error (.joinFailed token.joinAddresses.length
          (joinLastErr env token.joinAddresses .nilError)) ∧
      (joinWithToken env token).2 = token.joinAddresses) ∧
    (∀ (cenv : ControlEnv) (req : Control),
      cenv.joinEnv = env → req.joinToken ≠ "" →
      cenv.decodeToken req.joinToken = .ok token →
      (∀ a ∈ token.joinAddresses, candidateFails env token.fingerprint a) →
      ∀ eff ∈ (controlPost .NotReady (some req) cenv).2,
        eff ≠ .writeClusterCert ∧ eff ≠ .writeAdditionalCerts ∧
        eff ≠ .writeTrustStore ∧ eff ≠ .startAPI) := by
  refine ⟨joinLoop_attempts_in_order env token.fingerprint token.joinAddresses.length
    token.joinAddresses .nilError, ?_, ?_, ?_, ?_, ?_⟩
  · intro fp total a rest lastErr e hfe
    simp [joinLoop, hfe]
  · intro fp total a rest lastErr c e hfc hcfp hcn ham
    have hbne : (c.fingerprint != fp) = false := by simp [hcfp]
    simp [joinLoop, hfc, hbne, hcn, ham]
  · intro fp total a rest lastErr c hfc hne
    have hbne : (c.fingerprint != fp) = true := by simp [hne]
    simp [joinLoop, hfc, hbne]
  · intro hall
    have h := joinLoop_allFail env token.fingerprint token.joinAddresses.length
      token.joinAddresses .nilError hall
    exact ⟨by rw [joinWithToken, h], by rw [joinWithToken, h]⟩
  · intro cenv req hje hjt hdec hall eff heff
    have hjoin : (joinWithToken cenv.joinEnv token).1 =
        .error (.joinFailed token.joinAddresses.length
          (joinLastErr cenv.joinEnv token.joinAddresses .nilError)) := by
      rw [hje, joinWithToken,
        joinLoop_allFail env token.fingerprint token.joinAddresses.length
          token.joinAddresses .nilError hall]
    have hjt2 : (req.joinToken != "") = true := by simp [hjt]
    simp only [controlPost, bne_self_eq_false, Bool.false_eq_true, if_false] at heff
    apply effect_not_write
    cases hbt : req.bootstrap && (req.joinToken != "") with
    | true =>
      rw [hbt] at heff
      simp at heff
    | false =>
      rw [hbt] at heff
      simp only [Bool.false_eq_true, if_false] at heff
      cases hv : cenv.validFQDN req.name with
      | false =>
        rw [hv] at heff
        simp at heff
      | true =>
        rw [hv] at heff
        simp only [Bool.not_true, Bool.false_eq_true, if_false] at heff
        cases hsc : cenv.setConfigErr with
        | some e =>
          rw [hsc] at heff
          simp at heff
        | none =>
          rw [hsc] at heff
          cases hpi : cenv.preInitErr with
          | some e =>
            rw [hpi] at heff
            simp only [List.mem_cons, List.mem_singleton, List.not_mem_nil,
              or_false] at heff
            tauto
          | none =>
            rw [hpi] at heff
            rw [hjt2] at heff
            simp only [if_true] at heff
            simp only [hdec] at heff
            simp only [hjoin] at heff
            cases hcm : cenv.certNameMatches with
            | true =>
              rw [hcm] at heff
              simp at heff
              tauto
            | false =>
              rw [hcm] at heff
              simp at heff
              tauto

/-- C5 witness: a two-candidate token where the first candidate is
unreachable and the second refuses admission, plus a concrete
fingerprint mismatch and the absence of member-state writes in the
control handler. -/
theorem joinWithToken_contract_witness :
    (joinWithToken
      ⟨fun a => if a = "a1" then .error (.msg "down") else .ok ⟨"rawB", "fpT"⟩,
        fun _ => none, fun _ => some (.msg "refused")⟩
      ⟨"sec", "fpT", ["a1", "a2"]⟩).1 =
        .error (.joinFailed 2 (.msg "refused")) ∧
    joinLoop
      ⟨fun a => if a = "a1" then .error (.msg "down") else .ok ⟨"rawB", "fpT"⟩,
        fun _ => none, fun _ => some (.msg "refused")⟩
      "other" 2 ["a3"] .nilError =
        (.error (.fingerprintMismatch "fpT" "other"), ["a3"]) ∧
    (∀ eff ∈ (controlPost .NotReady
        (some ⟨false, "tok", "addr", "n"⟩)
        ⟨fun _ => true, none, none, true, fun _ => .ok ⟨"sec", "fpT", ["a1", "a2"]⟩,
          ⟨fun a => if a = "a1" then .error (.msg "down") else .ok ⟨"rawB", "fpT"⟩,
            fun _ => none, fun _ => some (.msg "refused")⟩, none⟩).2,
      eff ≠ .writeTrustStore) := by
  have hall : ∀ a ∈ (["a1", "a2"] : List String),
      candidateFails
        ⟨fun a => if a = "a1" then .error (.msg "down") else .ok ⟨"rawB", "fpT"⟩,
          fun _ => none, fun _ => some (.msg "refused")⟩ "fpT" a := by
    intro a ha
    simp only [List.mem_cons, List.not_mem_nil, or_false] at ha
    rcases ha with rfl | rfl
    · exact Or.inl ⟨.msg "down", rfl⟩
    · exact Or.inr ⟨⟨"rawB", "fpT"⟩, rfl, rfl, rfl, ⟨.msg "refused", rfl⟩⟩
  refine ⟨?_, ?_, ?_⟩
  · exact ((joinWithToken_contract _ ⟨"sec", "fpT", ["a1", "a2"]⟩).2.2.2.2.1 hall).1
  · exact (joinWithToken_contract _ ⟨"sec", "fpT", ["a1", "a2"]⟩).2.2.2.1
      "other" 2 "a3" [] .nilError ⟨"rawB", "fpT"⟩ rfl (by decide)
  · intro eff heff
    exact ((joinWithToken_contract _ ⟨"sec", "fpT", ["a1", "a2"]⟩).2.2.2.2.2
      ⟨fun _ => true, none, none, true, fun _ => .ok ⟨"sec", "fpT", ["a1", "a2"]⟩,
        _, none⟩
      ⟨false, "tok", "addr", "n"⟩ rfl (by decide) rfl hall eff heff).2.2.1

/-- C6: when the table already holds a token record with the same
joiner name, `CreateCoreTokenRecord` fails — either through the
explicit duplicate-secret conflict or through the name-uniqueness
constraint of the table mapped by the registered error table — with an
error carrying status 409 Conflict, and the table is left unchanged by
the rolled-back transaction. -/
theorem createCoreTokenRecord_name_conflict (recs : List CoreTokenRecord)
    (object : CoreTokenRecord) (h : ∃ rec ∈ recs, rec.name = object.name) :
    (CreateCoreTokenRecord recs object).1 = recs ∧
    ∃ e, (CreateCoreTokenRecord recs object).2 = .error e ∧
      smartErrorStatus e = 409 := by
  by_cases hsec : CoreTokenRecordExists recs object.secret = true
  · unfold CreateCoreTokenRecord
    rw [if_pos hsec]
    exact ⟨rfl, .statusError 409 "This core_token_records entry already exists",
      rfl, rfl⟩
  · have hsec2 : ¬ CoreTokenRecordExists recs object.secret = true := hsec
    have hins : coreTokenRecordsInsert recs object = .error .uniqueConstraint := by
      unfold coreTokenRecordsInsert
      rcases h with ⟨rec, hmem, hname⟩
      rw [if_pos (List.any_eq_true.mpr ⟨rec, hmem, by simp [hname]⟩)]
    unfold CreateCoreTokenRecord
    rw [if_neg hsec2, hins]
    exact ⟨rfl, .wrap "Failed to create core_token_records entry" .uniqueConstraint,
      rfl, rfl⟩

/-- C6 witness: a second token record for the name `nodeA` with a fresh
secret is refused with a 409 and the table keeps its single row. -/
theorem createCoreTokenRecord_name_conflict_witness :
    (CreateCoreTokenRecord [⟨1, "s1", "nodeA", 0⟩] ⟨0, "s2", "nodeA", 5⟩).1 =
      [⟨1, "s1", "nodeA", 0⟩] ∧
    ∃ e, (CreateCoreTokenRecord [⟨1, "s1", "nodeA", 0⟩] ⟨0, "s2", "nodeA", 5⟩).2 =
      .error e ∧ smartErrorStatus e = 409 :=
  createCoreTokenRecord_name_conflict [⟨1, "s1", "nodeA", 0⟩] ⟨0, "s2", "nodeA", 5⟩
    ⟨⟨1, "s1", "nodeA", 0⟩, by decide, rfl⟩

/-- C7 counterexample: a failing `OnStart` hook makes `Daemon.Run`
return the wrapped post-start-hook error without closing the ready
channel, contradicting the claim that the error is only logged and the
start sequence still completes. -/
theorem daemonRun_onStart_error_counterexample :
    daemonRunStartTail none (some (.msg "hook failed")) =
      (some (.wrap "Failed to run post-start hook" (.msg "hook failed")), false) := rfl

/-- C7 (amended): a non-nil error from the `OnStart` hook aborts the
daemon start: `Daemon.Run` returns it wrapped as the post-start-hook
failure and the ready channel is not closed. -/
theorem daemonRun_onStart_error_aborts (e : GoError) :
    daemonRunStartTail none (some e) =
      (some (.wrap "Failed to run post-start hook" e), false) := rfl

/-- C8 counterexample: a request whose `X-Dqlite-Version` header
parses to 0 — behind the version 1 this node sends on its own dials —
with a correct `Upgrade: dqlite` header receives the empty success
response, not 426 Upgrade Required: the handler never compares the
parsed version. -/
theorem databasePost_stale_version_counterexample :
    goAtoi "0" = some 0 ∧ (0 : Int) < 1 ∧
    databasePost ⟨"dqlite", "0"⟩ = .emptySync :=
  ⟨rfl, by decide, rfl⟩

/-- C8 (amended): the `/database` POST handler defaults a missing
version header to `"0"`, answers 400 when the version header is not a
number or when the `Upgrade` header is missing or not `dqlite`, and
otherwise returns the empty success response (leading to the protocol
switch) regardless of the version value; it never answers 426. -/
theorem databasePost_contract (r : DatabasePostRequest) :
    (goAtoi (if r.dqliteVersionHeader == "" then "0" else r.dqliteVersionHeader) =
        none →
      databasePost r = .badRequest "Invalid dqlite version") ∧
    (∀ v, goAtoi (if r.dqliteVersionHeader == "" then "0" else r.dqliteVersionHeader) =
        some v →
      r.upgradeHeader ≠ "dqlite" →
      databasePost r = .badRequest "Missing or invalid upgrade header") ∧
    (∀ v, goAtoi (if r.dqliteVersionHeader == "" then "0" else r.dqliteVersionHeader) =
        some v →
      r.upgradeHeader = "dqlite" →
      databasePost r = .emptySync) := by
  refine ⟨?_, ?_, ?_⟩
  · intro h
    simp only [databasePost]
    rw [h]
  · intro v hv hne
    simp only [databasePost]
    rw [hv]
    simp [bne_iff_ne, hne]
  · intro v hv he
    simp only [databasePost]
    rw [hv]
    simp [he]

/-- C8 witness: a non-numeric version, a missing upgrade header, and a
well-formed upgrade request through `databasePost_contract`. -/
theorem databasePost_contract_witness :
    databasePost ⟨"dqlite", "abc"⟩ = .badRequest "Invalid dqlite version" ∧
    databasePost ⟨"", "1"⟩ = .badRequest "Missing or invalid upgrade header" ∧
    databasePost ⟨"dqlite", ""⟩ = .emptySync :=
  ⟨(databasePost_contract ⟨"dqlite", "abc"⟩).1 rfl,
   (databasePost_contract ⟨"", "1"⟩).2.1 1 rfl (by decide),
   (databasePost_contract ⟨"dqlite", ""⟩).2.2 0 rfl rfl⟩

/-- C9: every `POST /control` request made while the database status is
not `NotReady` is refused with the unable-to-initialize error, and the
handler performs no state mutation at all: no daemon configuration
write and no lifecycle hook invocation. -/
theorem controlPost_refused_unless_notReady (status : DatabaseStatus)
    (body : Option Control) (env : ControlEnv)
    (h : status ≠ DatabaseStatus.NotReady) :
    controlPost status body env =
      (.smartError (.msg "Unable to initialize cluster"), []) := by
  have hb : (status != DatabaseStatus.NotReady) = true := by
    simp [bne_iff_ne, h]
  simp [controlPost, hb]

/-- C9 witness: a bootstrap request against a `Ready` database is
refused with no effects. -/
theorem controlPost_refused_unless_notReady_witness :
    controlPost .Ready (some ⟨true, "", "a", "n"⟩)
      ⟨fun _ => true, none, none, true, fun _ => .error .nilError,
        ⟨fun _ => .error .nilError, fun _ => none, fun _ => none⟩, none⟩ =
      (.smartError (.msg "Unable to initialize cluster"), []) :=
  controlPost_refused_unless_notReady .Ready (some ⟨true, "", "a", "n"⟩)
    ⟨fun _ => true, none, none, true, fun _ => .error .nilError,
      ⟨fun _ => .error .nilError, fun _ => none, fun _ => none⟩, none⟩
    (by decide)

/-- C10: a `POST /control` body carrying both the bootstrap flag and a
non-empty join token is rejected with the invalid-options error before
any state changes: no configuration write, no hook invocation, no
certificate regeneration. -/
theorem controlPost_bootstrap_and_token_rejected (env : ControlEnv)
    (req : Control) (hb : req.bootstrap = true) (ht : req.joinToken ≠ "") :
    controlPost .NotReady (some req) env =
      (.smartError (.msg "Invalid options - received join token and bootstrap flag"),
        []) := by
  have hbt : (req.bootstrap && (req.joinToken != "")) = true := by
    simp [hb, bne_iff_ne, ht]
  simp [controlPost, hbt]

/-- C10 witness: a concrete bootstrap-plus-token request is rejected
with no effects. -/
theorem controlPost_bootstrap_and_token_rejected_witness :
    controlPost .NotReady (some ⟨true, "tok", "a", "n"⟩)
      ⟨fun _ => true, none, none, true, fun _ => .error .nilError,
        ⟨fun _ => .error .nilError, fun _ => none, fun _ => none⟩, none⟩ =
      (.smartError (.msg "Invalid options - received join token and bootstrap flag"),
        []) :=
  controlPost_bootstrap_and_token_rejected
    ⟨fun _ => true, none, none, true, fun _ => .error .nilError,
      ⟨fun _ => .error .nilError, fun _ => none, fun _ => none⟩, none⟩
    ⟨true, "tok", "a", "n"⟩ rfl (by decide)

end Microcluster

